import Mathlib

/-!
Verification of the frame-compositing / recording page (`src/app/page.tsx`).

The page is shallowly embedded: JS numbers are modelled as `ℚ` where the
source only uses field arithmetic, comparisons, `min`/`max` and
`Math.round`, and as `ℝ` where `Math.sin` / `Math.cos` appear (the Ken
Burns pan).  `Math.round x` is `⌊x + 1/2⌋` (JS rounds half-way cases
toward +∞).  React state and the mutable refs are gathered into an
explicit `AppState` record and each handler becomes a state-transition
function.
-/

namespace VideoPage

/-- The two values of the `Aspect` union type (`"9:16" | "4:5"`). -/
inductive Aspect where
  | a916 : Aspect
  | a45 : Aspect
deriving DecidableEq

/-- JS `Math.round` on rationals: `⌊x + 1/2⌋`. -/
def jsRoundQ (x : ℚ) : ℤ := ⌊x + 1 / 2⌋

/-- `parseAspect` (lines 8-11): splitting `"9:16"` / `"4:5"` on `":"` and
reading the two numbers yields these pairs; the `ratio` field is `w / h`. -/
def parseAspect : Aspect → ℚ × ℚ
  | .a916 => (9, 16)
  | .a45 => (4, 5)

/-- The `ratio` field computed by `parseAspect`. -/
def aspectRatio (a : Aspect) : ℚ := (parseAspect a).1 / (parseAspect a).2

/-- `constrainSize(aspect, maxWidth)` (lines 13-18): width is `maxWidth`,
height is `Math.round(width / ratio)`. -/
def constrainSize (a : Aspect) (maxWidth : ℚ) : ℚ × ℤ :=
  (maxWidth, jsRoundQ (maxWidth / aspectRatio a))

/-- CTA pill opacity (lines 119-120): `ctaAppear = 12`,
`Math.min(Math.max((elapsed - 12) / 1.5, 0), 1)`. -/
def ctaAlpha (elapsed : ℚ) : ℚ := min (max ((elapsed - 12) / 1.5) 0) 1

/-- Normalized progress (line 54): `t = Math.min(elapsed / durationSec, 1)`. -/
def tOf (durationSec elapsed : ℚ) : ℚ := min (elapsed / durationSec) 1

/-- The ease-out cubic (line 98): `x => 1 - Math.pow(1 - x, 3)`. -/
def easeOutCubic (x : ℚ) : ℚ := 1 - (1 - x) ^ 3

/-- Headline opacity (line 99):
`t < 0.05 ? ease(Math.min(elapsed / 2, 1)) : 1`. -/
def headAlpha (durationSec elapsed : ℚ) : ℚ :=
  if tOf durationSec elapsed < 0.05 then easeOutCubic (min (elapsed / 2) 1) else 1

/-- The page's React state plus the mutable refs that the handlers read and
write.  `recorderStopCalls` counts invocations of `recorder.stop()` on the
recorder created by the last `startRecording`; `pendingStops` holds the
durations of `setTimeout`-scheduled automatic stops that have not fired. -/
structure AppState where
  imageUrl : Option String
  aspect : Aspect
  durationSec : ℚ
  isRecording : Bool
  downloadUrl : Option String
  canvasPresent : Bool
  imageLoaded : Bool
  previewRunning : Bool
  recorderPresent : Bool
  recorderStopCalls : Nat
  pendingStops : List ℚ
deriving DecidableEq

/-- `handleFile` (lines 184-188): stores the new object URL and clears the
previous download artifact; nothing else is touched. -/
def handleFile (url : String) (s : AppState) : AppState :=
  { s with imageUrl := some url, downloadUrl := none }

/-- `startRecording` (lines 207-230): returns immediately unless both the
canvas and the loaded image are present; otherwise creates a fresh recorder,
sets `isRecording`, starts the preview loop, starts the recorder and
schedules an automatic `recorder.stop()` after `durationSec` seconds.  No
check of `durationSec` is performed. -/
def startRecording (s : AppState) : AppState :=
  if s.canvasPresent && s.imageLoaded then
    { s with
      recorderPresent := true
      recorderStopCalls := 0
      isRecording := true
      previewRunning := true
      pendingStops := s.pendingStops ++ [s.durationSec] }
  else s

/-- `stopRecording` (lines 232-234): `recorderRef.current?.stop()` — one more
`stop()` call on the current recorder when there is one; the scheduled
timeout is not touched. -/
def stopRecording (s : AppState) : AppState :=
  if s.recorderPresent then
    { s with recorderStopCalls := s.recorderStopCalls + 1 }
  else s

/-- Firing one scheduled `setTimeout` from `startRecording` (lines 227-229):
its callback is `recorder.stop()` on the recorder captured at scheduling
time. -/
def fireStopTimeout (s : AppState) : AppState :=
  match s.pendingStops with
  | [] => s
  | _ :: rest =>
      { s with pendingStops := rest, recorderStopCalls := s.recorderStopCalls + 1 }

/-- A fully loaded page state whose duration field holds 100, a value outside
the advertised `[5,60]` range. -/
def idleReady : AppState :=
  { imageUrl := some "blob:img"
    aspect := .a916
    durationSec := 100
    isRecording := false
    downloadUrl := none
    canvasPresent := true
    imageLoaded := true
    previewRunning := false
    recorderPresent := false
    recorderStopCalls := 0
    pendingStops := [] }

/-- JS `text.split(" ")` on the character list: splits at every single space,
keeping empty pieces; the empty string yields `[""]`. -/
def jsSplitAux : List Char → List Char → List String
  | [], cur => [String.mk cur.reverse]
  | c :: cs, cur =>
      if c = ' ' then String.mk cur.reverse :: jsSplitAux cs []
      else jsSplitAux cs (c :: cur)

/-- JS `text.split(" ")`. -/
def jsSplit (s : String) : List String := jsSplitAux s.data []

/-- The loop of `wrapText` (lines 162-173) together with the final
`ctx.fillText(line, ...)` (line 174), returning the lines in the order they
are painted.  `n` is the loop index, `line` the accumulator. -/
def wrapAux (measure : String → ℚ) (maxWidth : ℚ) :
    List String → Nat → String → List String
  | [], _, line => [line]
  | w :: ws, n, line =>
      let testLine := line ++ w ++ " "
      if maxWidth < measure testLine ∧ 0 < n then
        line :: wrapAux measure maxWidth ws (n + 1) (w ++ " ")
      else
        wrapAux measure maxWidth ws (n + 1) testLine

/-- `wrapText` (lines 151-175), abstracted over the canvas text-measuring
function and returning the painted lines. -/
def wrapText (text : String) (maxWidth : ℚ) (measure : String → ℚ) : List String :=
  wrapAux measure maxWidth (jsSplit text) 0 ""

/-- A concrete measure for counterexamples: every character one unit wide. -/
def qlen (s : String) : ℚ := s.length

/-- JS `Math.round` on reals: `⌊x + 1/2⌋`. -/
noncomputable def jsRound (x : ℝ) : ℤ := ⌊x + 1 / 2⌋

/-- Ken Burns zoom (line 61): `1.05 + t * 0.12`. -/
noncomputable def zoom (t : ℝ) : ℝ := 1.05 + t * 0.12

/-- Horizontal pan fraction (line 62): `Math.sin(t * Math.PI * 2) * 0.05`. -/
noncomputable def panX (t : ℝ) : ℝ := Real.sin (t * Real.pi * 2) * 0.05

/-- Vertical pan fraction (line 63): `Math.cos(t * Math.PI * 2) * 0.04`. -/
noncomputable def panY (t : ℝ) : ℝ := Real.cos (t * Real.pi * 2) * 0.04

/-- Cover-fit scale (line 66):
`Math.max(canvas.width / img.naturalWidth, canvas.height / img.naturalHeight) * zoom`. -/
noncomputable def scale (W H iw ih t : ℝ) : ℝ := max (W / iw) (H / ih) * zoom t

/-- Drawn image width (line 67). -/
noncomputable def drawW (W H iw ih t : ℝ) : ℝ := iw * scale W H iw ih t

/-- Drawn image height (line 68). -/
noncomputable def drawH (W H iw ih t : ℝ) : ℝ := ih * scale W H iw ih t

/-- Drawn image center x (line 69): `canvas.width / 2 + panX * canvas.width`. -/
noncomputable def centerX (W t : ℝ) : ℝ := W / 2 + panX t * W

/-- Drawn image center y (line 70). -/
noncomputable def centerY (H t : ℝ) : ℝ := H / 2 + panY t * H

/-- Drawn image left edge (line 71): `Math.round(centerX - drawW / 2)`. -/
noncomputable def dx (W H iw ih t : ℝ) : ℤ :=
  jsRound (centerX W t - drawW W H iw ih t / 2)

/-- Drawn image top edge (line 72): `Math.round(centerY - drawH / 2)`. -/
noncomputable def dy (W H iw ih t : ℝ) : ℤ :=
  jsRound (centerY H t - drawH W H iw ih t / 2)

/-- The rectangle `[dx, dx + drawW] × [dy, dy + drawH]` painted by
`ctx.drawImage` (line 76) contains the whole frame `[0, W] × [0, H]`. -/
def coversFrame (W H iw ih t : ℝ) : Prop :=
  (dx W H iw ih t : ℝ) ≤ 0 ∧ W ≤ (dx W H iw ih t : ℝ) + drawW W H iw ih t ∧
  (dy W H iw ih t : ℝ) ≤ 0 ∧ H ≤ (dy W H iw ih t : ℝ) + drawH W H iw ih t

theorem jsSplitAux_ne_nil (cs : List Char) : ∀ cur, jsSplitAux cs cur ≠ [] := by
  induction cs with
  | nil => intro cur; simp [jsSplitAux]
  | cons c cs ih =>
      intro cur
      rw [jsSplitAux]
      by_cases hc : c = ' '
      · simp [hc]
      · simpa [hc] using ih (c :: cur)

theorem jsSplit_exists_cons (s : String) : ∃ w ws, jsSplit s = w :: ws := by
  rcases h : jsSplit s with _ | ⟨w, ws⟩
  · exact absurd h (jsSplitAux_ne_nil s.data [])
  · exact ⟨w, ws, rfl⟩

/-- Loop invariant for `wrapAux`: once the index is positive, every line it
ever emits either measures within `maxWidth` or is a single word of `W`
followed by the separator space. -/
theorem wrapAux_inv (measure : String → ℚ) (mw : ℚ) (W : List String) :
    ∀ (ws : List String) (n : Nat) (line : String), 0 < n →
      (measure line ≤ mw ∨ ∃ w ∈ W, line = w ++ " ") →
      (∀ w ∈ ws, w ∈ W) →
      ∀ l ∈ wrapAux measure mw ws n line,
        measure l ≤ mw ∨ ∃ w ∈ W, l = w ++ " " := by
  intro ws
  induction ws with
  | nil =>
      intro n line _ hline _ l hl
      rw [wrapAux] at hl
      rcases List.mem_singleton.mp hl with rfl
      exact hline
  | cons w ws ih =>
      intro n line hn hline hsub l hl
      rw [wrapAux] at hl
      by_cases hc : mw < measure (line ++ w ++ " ") ∧ 0 < n
      · rw [if_pos hc] at hl
        rcases List.mem_cons.mp hl with rfl | hl'
        · exact hline
        · exact ih (n + 1) (w ++ " ") (Nat.succ_pos n)
            (Or.inr ⟨w, hsub w (List.mem_cons_self w ws), rfl⟩)
            (fun x hx => hsub x (List.mem_cons_of_mem _ hx)) l hl'
      · rw [if_neg hc] at hl
        have hle : measure (line ++ w ++ " ") ≤ mw := by
          by_contra hgt
          exact hc ⟨lt_of_not_le hgt, hn⟩
        exact ih (n + 1) (line ++ w ++ " ") (Nat.succ_pos n) (Or.inl hle)
          (fun x hx => hsub x (List.mem_cons_of_mem _ hx)) l hl

theorem empty_string_append (s : String) : "" ++ s = s := by
  cases s
  rfl

theorem easeOutCubic_le_one {x : ℚ} (hx : x ≤ 1) : easeOutCubic x ≤ 1 := by
  have h : 0 ≤ (1 - x) ^ 3 := pow_nonneg (by linarith) 3
  unfold easeOutCubic
  linarith

theorem easeOutCubic_mono {x y : ℚ} (hy : y ≤ 1) (hxy : x ≤ y) :
    easeOutCubic x ≤ easeOutCubic y := by
  have h : (1 - y) ^ 3 ≤ (1 - x) ^ 3 :=
    pow_le_pow_left₀ (by linarith) (by linarith) 3
  unfold easeOutCubic
  linarith

theorem tOf_mono {d e1 e2 : ℚ} (hd : 0 < d) (h : e1 ≤ e2) : tOf d e1 ≤ tOf d e2 := by
  unfold tOf
  exact min_le_min (div_le_div_of_nonneg_right h hd.le) le_rfl

theorem headAlpha_fading {d e : ℚ} (ht : tOf d e < 0.05) :
    headAlpha d e = easeOutCubic (min (e / 2) 1) := by
  rw [headAlpha, if_pos ht]

theorem headAlpha_held {d e : ℚ} (ht : ¬ tOf d e < 0.05) : headAlpha d e = 1 := by
  rw [headAlpha, if_neg ht]

/-- C1 (counterexample): at `t = 0` with a 540×960 source image in the
540×960 frame, the vertical pan (`panY 0 = 0.04`, i.e. 38.4 px) exceeds the
zoom margin ((1.05 − 1)/2 · 960 = 24 px), so `dy = 14 > 0` and a 14-pixel
strip at the top of the frame is left uncovered — the frame dimensions are
positive and `t ∈ [0,1]`, yet the drawn rectangle does not contain the
frame. -/
theorem cover_fails_at_zero :
    (0 : ℝ) < 540 ∧ (0 : ℝ) < 960 ∧ (0 : ℝ) ≤ 0 ∧ (0 : ℝ) ≤ 1 ∧
    ¬ coversFrame 540 960 540 960 0 := by
  refine ⟨by norm_num, by norm_num, le_rfl, by norm_num, ?_⟩
  intro h
  have hdy : dy 540 960 540 960 0 = 14 := by
    rw [dy, jsRound, centerY, drawH, scale, zoom, panY]
    have hc : Real.cos (0 * Real.pi * 2) = 1 := by
      rw [zero_mul, zero_mul, Real.cos_zero]
    rw [hc]
    have hmax : max ((540 : ℝ) / 540) (960 / 960) = 1 := by norm_num
    rw [hmax, Int.floor_eq_iff]
    constructor
    · norm_num
    · norm_num
  have hle := h.2.2.1
  rw [hdy] at hle
  norm_num at hle

/-- C1 (amended): the cover-fit draw fully covers the frame whenever the pan
displacement fits inside the margin that the drawn rectangle has over the
frame, with half a pixel of slack for `Math.round`: if
`|panX t|·W + 1/2 ≤ (drawW − W)/2` and `|panY t|·H + 1/2 ≤ (drawH − H)/2`,
then `[dx, dx + drawW] × [dy, dy + drawH]` contains `[0, W] × [0, H]`.
(The unconditional claim is false: near the pan extremes the offset can
exceed the zoom margin — see the counterexample.) -/
theorem cover_holds_within_pan_margin (W H iw ih t : ℝ)
    (hW : 0 < W) (hH : 0 < H) (hiw : 0 < iw) (hih : 0 < ih)
    (hx : |panX t| * W + 1 / 2 ≤ (drawW W H iw ih t - W) / 2)
    (hy : |panY t| * H + 1 / 2 ≤ (drawH W H iw ih t - H) / 2) :
    coversFrame W H iw ih t := by
  have hpx1 : panX t * W ≤ |panX t| * W :=
    mul_le_mul_of_nonneg_right (le_abs_self _) hW.le
  have hpx2 : -(|panX t| * W) ≤ panX t * W := by
    have h := neg_abs_le (panX t)
    nlinarith
  have hpy1 : panY t * H ≤ |panY t| * H :=
    mul_le_mul_of_nonneg_right (le_abs_self _) hH.le
  have hpy2 : -(|panY t| * H) ≤ panY t * H := by
    have h := neg_abs_le (panY t)
    nlinarith
  have hx1 : (dx W H iw ih t : ℝ) ≤ centerX W t - drawW W H iw ih t / 2 + 1 / 2 := by
    rw [dx, jsRound]
    exact Int.floor_le _
  have hx2 : centerX W t - drawW W H iw ih t / 2 + 1 / 2 - 1 < (dx W H iw ih t : ℝ) := by
    rw [dx, jsRound]
    exact Int.sub_one_lt_floor _
  have hy1 : (dy W H iw ih t : ℝ) ≤ centerY H t - drawH W H iw ih t / 2 + 1 / 2 := by
    rw [dy, jsRound]
    exact Int.floor_le _
  have hy2 : centerY H t - drawH W H iw ih t / 2 + 1 / 2 - 1 < (dy W H iw ih t : ℝ) := by
    rw [dy, jsRound]
    exact Int.sub_one_lt_floor _
  rw [centerX] at hx1 hx2
  rw [centerY] at hy1 hy2
  refine ⟨by linarith, by linarith, by linarith, by linarith⟩

/-- C1 (witness): a 100×960 image in the 540×960 frame at `t = 0` satisfies
both margin conditions, and indeed the frame is fully covered. -/
theorem cover_holds_within_pan_margin_w : coversFrame 540 960 100 960 0 := by
  have hpx : panX 0 = 0 := by
    rw [panX, zero_mul, zero_mul, Real.sin_zero, zero_mul]
  have hpy : panY 0 = 0.04 := by
    rw [panY, zero_mul, zero_mul, Real.cos_zero, one_mul]
  have hmax : max ((540 : ℝ) / 100) (960 / 960) = 27 / 5 := by
    rw [max_eq_left] <;> norm_num
  have hdw : drawW 540 960 100 960 0 = 567 := by
    rw [drawW, scale, zoom, hmax]
    norm_num
  have hdh : drawH 540 960 100 960 0 = 27216 / 5 := by
    rw [drawH, scale, zoom, hmax]
    norm_num
  apply cover_holds_within_pan_margin 540 960 100 960 0
  · norm_num
  · norm_num
  · norm_num
  · norm_num
  · rw [hpx, hdw]
    norm_num
  · rw [hpy, hdh, show |(0.04 : ℝ)| = 0.04 from abs_of_nonneg (by norm_num)]
    norm_num

/-- C2 (counterexample): with the image loaded and `durationSec = 100`, a
value outside `[5,60]`, `startRecording` does not reject the scene: it flips
`isRecording` to `true` and changes the state (begins encoding). -/
theorem startRecording_skips_duration_check :
    (60 : ℚ) < idleReady.durationSec ∧ idleReady.isRecording = false ∧
    (startRecording idleReady).isRecording = true ∧
    startRecording idleReady ≠ idleReady := by
  refine ⟨by norm_num [idleReady], rfl, rfl, ?_⟩
  decide

/-- C2 (amended): `startRecording` validates only that the canvas and the
source image are present — it never checks `durationSec`.  With either
missing it returns synchronously with no state change; with both present it
begins encoding (sets `isRecording`) and schedules the automatic stop after
`durationSec`, whatever that value is. -/
theorem startRecording_checks_presence_only (s : AppState) :
    ((s.canvasPresent && s.imageLoaded) = false → startRecording s = s) ∧
    ((s.canvasPresent && s.imageLoaded) = true →
      (startRecording s).isRecording = true ∧
      (startRecording s).pendingStops = s.pendingStops ++ [s.durationSec]) := by
  constructor
  · intro h
    simp [startRecording, h]
  · intro h
    simp [startRecording, h]

/-- C2 (witness): on the loaded state with duration 100 the recording starts
and the stop is scheduled for 100 seconds. -/
theorem startRecording_checks_presence_only_w :
    (startRecording idleReady).isRecording = true ∧
    (startRecording idleReady).pendingStops =
      idleReady.pendingStops ++ [idleReady.durationSec] :=
  (startRecording_checks_presence_only idleReady).2 rfl

/-- C3 (counterexample): with the one-unit-per-character measure, wrapping
`"ab c"` at width 2 paints the line `"ab "` of width 3 > 2, and that line is
not a single word wider than 2 — the word `"ab"` measures exactly 2; the
excess comes from the separator space the code appends before measuring. -/
theorem wrap_width_claim_false :
    ¬ (∀ l ∈ wrapText "ab c" 2 qlen,
        qlen l ≤ 2 ∨ ∃ w ∈ jsSplit "ab c", l = w ++ " " ∧ 2 < qlen w) := by
  decide

/-- C3 (amended): every painted line either measures within `maxWidth` or
consists of a single word of the text followed by the separator space (the
word itself need not be over-wide: the appended space, or being the first
word, suffices); in particular an over-wide word is never split. -/
theorem wrap_lines_bounded (text : String) (mw : ℚ) (measure : String → ℚ) :
    ∀ l ∈ wrapText text mw measure,
      measure l ≤ mw ∨ ∃ w ∈ jsSplit text, l = w ++ " " := by
  intro l hl
  obtain ⟨w0, ws, hsplit⟩ := jsSplit_exists_cons text
  rw [hsplit]
  rw [wrapText, hsplit, wrapAux] at hl
  rw [if_neg (by simp)] at hl
  rw [empty_string_append] at hl
  exact wrapAux_inv measure mw (w0 :: ws) ws 1 (w0 ++ " ") Nat.one_pos
    (Or.inr ⟨w0, List.mem_cons_self w0 ws, rfl⟩)
    (fun x hx => List.mem_cons_of_mem _ hx) l hl

/-- C3 (witness): the over-wide painted line `"ab "` from the counterexample
input is a single word plus the separator space. -/
theorem wrap_lines_bounded_w :
    qlen "ab " ≤ 2 ∨ ∃ w ∈ jsSplit "ab c", "ab " = w ++ " " :=
  wrap_lines_bounded "ab c" 2 qlen "ab " (by decide)

/-- C4 (counterexample): wrapping the empty string paints exactly one line,
but that line is a single space (the empty word plus the appended separator),
not the empty string. -/
theorem wrapText_empty_not_empty_line :
    wrapText "" 100 qlen = [" "] ∧ wrapText "" 100 qlen ≠ [""] := by
  decide

/-- C4 (amended): for every `maxWidth` and every measure function, wrapping
the empty string returns exactly one line, and that line is the single space
`" "`. -/
theorem wrapText_empty_single_space (mw : ℚ) (measure : String → ℚ) :
    wrapText "" mw measure = [" "] := by
  have hsplit : jsSplit "" = [""] := rfl
  rw [wrapText, hsplit, wrapAux]
  rw [if_neg (by simp)]
  rw [wrapAux]
  rfl

/-- C5 (confirmed): for every duration in `[5,60]`, the headline opacity is 0
at elapsed 0, is 1 from elapsed 2 on, follows `1 - (1-x)^3` with
`x = min(elapsed/2, 1)` while normalized progress is below 0.05, and is
monotonically non-decreasing in elapsed time. -/
theorem headline_opacity (d : ℚ) (h5 : 5 ≤ d) (h60 : d ≤ 60) :
    headAlpha d 0 = 0 ∧
    (∀ e, 2 ≤ e → headAlpha d e = 1) ∧
    (∀ e, tOf d e < 0.05 → headAlpha d e = easeOutCubic (min (e / 2) 1)) ∧
    (∀ e1 e2, 0 ≤ e1 → e1 ≤ e2 → headAlpha d e1 ≤ headAlpha d e2) := by
  have hd : (0 : ℚ) < d := by linarith
  refine ⟨?_, ?_, ?_, ?_⟩
  · have ht : tOf d 0 < 0.05 := by
      unfold tOf
      rw [zero_div]
      norm_num
    rw [headAlpha_fading ht]
    norm_num [easeOutCubic]
  · intro e he
    by_cases ht : tOf d e < 0.05
    · rw [headAlpha_fading ht, min_eq_right (by linarith : (1 : ℚ) ≤ e / 2)]
      norm_num [easeOutCubic]
    · exact headAlpha_held ht
  · intro e ht
    exact headAlpha_fading ht
  · intro e1 e2 _ h12
    by_cases ht2 : tOf d e2 < 0.05
    · have ht1 : tOf d e1 < 0.05 := lt_of_le_of_lt (tOf_mono hd h12) ht2
      rw [headAlpha_fading ht1, headAlpha_fading ht2]
      exact easeOutCubic_mono (min_le_right _ _)
        (min_le_min (by linarith) le_rfl)
    · rw [headAlpha_held ht2]
      by_cases ht1 : tOf d e1 < 0.05
      · rw [headAlpha_fading ht1]
        exact easeOutCubic_le_one (min_le_right _ _)
      · rw [headAlpha_held ht1]

/-- C5 (witness): with duration 10, the headline is invisible at elapsed 0
and fully opaque at elapsed 2. -/
theorem headline_opacity_w : headAlpha 10 0 = 0 ∧ headAlpha 10 2 = 1 := by
  have h := headline_opacity 10 (by norm_num) (by norm_num)
  exact ⟨h.1, h.2.1 2 le_rfl⟩

/-- C6 (confirmed): the camera zoom is `1.05 + 0.12·t`, lies in
`[1.05, 1.17]` on `t ∈ [0,1]`, and is monotonically non-decreasing. -/
theorem zoom_range_and_monotone :
    (∀ t : ℝ, 0 ≤ t → t ≤ 1 →
      zoom t = 1.05 + 0.12 * t ∧ 1.05 ≤ zoom t ∧ zoom t ≤ 1.17) ∧
    (∀ t1 t2 : ℝ, t1 ≤ t2 → zoom t1 ≤ zoom t2) := by
  constructor
  · intro t h0 h1
    refine ⟨by rw [zoom]; ring, ?_, ?_⟩
    · rw [zoom]
      nlinarith
    · rw [zoom]
      nlinarith
  · intro t1 t2 h
    simp only [zoom]
    nlinarith

/-- C6 (witness): at `t = 1` the zoom is within `[1.05, 1.17]`. -/
theorem zoom_range_and_monotone_w : 1.05 ≤ zoom 1 ∧ zoom 1 ≤ 1.17 := by
  have h := zoom_range_and_monotone.1 1 (by norm_num) le_rfl
  exact ⟨h.2.1, h.2.2⟩

/-- C7 (confirmed): the frame size computed from an aspect choice is width
540 and height `round(540 / ratio)`: 540×960 for 9:16 and 540×675 for
4:5. -/
theorem constrainSize_aspects :
    constrainSize Aspect.a916 540 = (540, 960) ∧
    constrainSize Aspect.a45 540 = (540, 675) := by
  have h1 : jsRoundQ (540 / aspectRatio Aspect.a916) = 960 := by
    rw [jsRoundQ, Int.floor_eq_iff]
    constructor
    · norm_num [aspectRatio, parseAspect]
    · norm_num [aspectRatio, parseAspect]
  have h2 : jsRoundQ (540 / aspectRatio Aspect.a45) = 675 := by
    rw [jsRoundQ, Int.floor_eq_iff]
    constructor
    · norm_num [aspectRatio, parseAspect]
    · norm_num [aspectRatio, parseAspect]
  rw [constrainSize, constrainSize, h1, h2]
  exact ⟨rfl, rfl⟩

/-- C8 (confirmed): starting a recording schedules the automatic stop, a
manual `stopRecording` before it fires leaves the scheduled timeout in place
(it is never cancelled), and when the timeout then fires `recorder.stop()`
runs a second time on the already-stopped recorder. -/
theorem autoStop_survives_manual_stop (s : AppState) (hc : s.canvasPresent = true)
    (hi : s.imageLoaded = true) (hp : s.pendingStops = []) :
    (startRecording s).pendingStops = [s.durationSec] ∧
    (stopRecording (startRecording s)).pendingStops = [s.durationSec] ∧
    (stopRecording (startRecording s)).recorderStopCalls = 1 ∧
    (fireStopTimeout (stopRecording (startRecording s))).recorderStopCalls = 2 := by
  simp [startRecording, stopRecording, fireStopTimeout, hc, hi, hp]

/-- C8 (witness): on the loaded state, start, manual stop, then the surviving
timeout firing yields two `stop()` calls on the recorder. -/
theorem autoStop_survives_manual_stop_w :
    (fireStopTimeout (stopRecording (startRecording idleReady))).recorderStopCalls = 2 :=
  (autoStop_survives_manual_stop idleReady rfl rfl rfl).2.2.2

/-- C9 (confirmed): the CTA opacity is keyed to absolute elapsed seconds —
`min(max((elapsed − 12)/1.5, 0), 1)`, independent of the configured duration
— so it is 0 before elapsed 12, and for any duration at most 12 it stays 0
throughout the recorded time range. -/
theorem ctaAlpha_absolute_schedule :
    (∀ e : ℚ, ctaAlpha e = min (max ((e - 12) / 1.5) 0) 1) ∧
    (∀ e : ℚ, e < 12 → ctaAlpha e = 0) ∧
    (∀ d e : ℚ, d ≤ 12 → 0 ≤ e → e ≤ d → ctaAlpha e = 0) := by
  have h0 : ∀ e : ℚ, e ≤ 12 → ctaAlpha e = 0 := by
    intro e he
    have h1 : (e - 12) / 1.5 ≤ 0 :=
      div_nonpos_iff.mpr (Or.inr ⟨by linarith, by norm_num⟩)
    rw [ctaAlpha, max_eq_right h1, min_eq_left (by norm_num : (0 : ℚ) ≤ 1)]
  exact ⟨fun e => rfl, fun e he => h0 e he.le,
    fun d e hd he0 hed => h0 e (le_trans hed hd)⟩

/-- C9 (witness): halfway through a 10-second clip the CTA is invisible. -/
theorem ctaAlpha_absolute_schedule_w : ctaAlpha 5 = 0 :=
  ctaAlpha_absolute_schedule.2.2 10 5 (by norm_num) (by norm_num) (by norm_num)

/-- C10 (confirmed): selecting a new source image stores the new object URL,
clears the previously produced download artifact, and leaves the aspect
selection, the duration and the recording flag untouched. -/
theorem handleFile_effect (url : String) (s : AppState) :
    (handleFile url s).imageUrl = some url ∧
    (handleFile url s).downloadUrl = none ∧
    (handleFile url s).aspect = s.aspect ∧
    (handleFile url s).durationSec = s.durationSec ∧
    (handleFile url s).isRecording = s.isRecording :=
  ⟨rfl, rfl, rfl, rfl, rfl⟩

end VideoPage
